import Mathlib

/-!
Verification of the Quality Scoring Pipeline of `autodoc_generator`.

The definitions below are a shallow embedding of
`src/auto_doc_generator/analyzers/quality_analyzer.py` and
`src/auto_doc_generator/generators/quality_llm_integration.py`.
Python floats are modelled as rationals (all constants appearing in the
verified formulas are exactly representable and far from rounding
boundaries), strings as `String`/`List Char`, dictionaries as association
lists, and code that can raise as `Except`-valued functions.
-/

namespace AutoDoc

/-- `QualityLevel` enumeration from quality_analyzer.py. -/
inductive QualityLevel where
  | excellent
  | good
  | fair
  | poor
  | critical
deriving DecidableEq, Repr

/-- Quality-level thresholds (`self.quality_thresholds`). -/
structure QualityThresholds where
  excellent : ℚ
  good : ℚ
  fair : ℚ
  poor : ℚ
deriving DecidableEq, Repr

/-- Default thresholds from `QualityAnalyzer.__init__`:
excellent 0.85, good 0.70, fair 0.55, poor 0.40. -/
def defaultThresholds : QualityThresholds :=
  { excellent := 85/100, good := 70/100, fair := 55/100, poor := 40/100 }

/-- `_determine_quality_level`: top-down first-match threshold lookup
(`score >= threshold`, lower bound closed). -/
def determineQualityLevel (th : QualityThresholds) (score : ℚ) : QualityLevel :=
  if th.excellent ≤ score then .excellent
  else if th.good ≤ score then .good
  else if th.fair ≤ score then .fair
  else if th.poor ≤ score then .poor
  else .critical

/-- `_calculate_overall_score`: a metric contributes `score * weight`; the
result is the weighted sum divided by the total weight, or `0.0` when the
total weight is not positive.  A metric is modelled by its
`(score, weight)` pair, in iteration order of `metrics.values()`. -/
def calculateOverallScore (metrics : List (ℚ × ℚ)) : ℚ :=
  let totalWeightedScore := (metrics.map (fun m => m.1 * m.2)).sum
  let totalWeight := (metrics.map (fun m => m.2)).sum
  if 0 < totalWeight then totalWeightedScore / totalWeight else 0

/-! ### Text-pattern matching used by `_analyze_security_quality`

Each Python regex used by the security scorer is translated to a matcher
`List Char → Option (List Char)` that, at a given position, either fails or
returns the remainder of the input after the match (regex alternation is
tried left to right, starred classes greedily with backtracking, exactly as
`re` does).  `re.findall` becomes `countMatches`: a left-to-right scan
counting non-overlapping matches. -/

/-- Python regex `\s` class (ASCII part). -/
def isPyWs (c : Char) : Bool :=
  c = ' ' || c = '\t' || c = '\n' || c = '\r' || c = '\x0b' || c = '\x0c'

/-- Python regex `\w` class (ASCII part). -/
def isWordChar (c : Char) : Bool := c.isAlphanum || c = '_'

/-- Match a literal at the head of the input; return the remainder. -/
def matchLit : List Char → List Char → Option (List Char)
  | [], s => some s
  | _ :: _, [] => none
  | p :: ps, c :: cs => if p = c then matchLit ps cs else none

/-- Case-insensitive literal match (for `re.IGNORECASE`). -/
def matchLitCI : List Char → List Char → Option (List Char)
  | [], s => some s
  | _ :: _, [] => none
  | p :: ps, c :: cs => if p.toLower = c.toLower then matchLitCI ps cs else none

/-- Consume `\s*` (greedy, no backtracking needed: every follower below is
a non-whitespace literal). -/
def dropWsGreedy (s : List Char) : List Char := s.dropWhile isPyWs

/-- Match `\s+`. -/
def matchWsPlus (s : List Char) : Option (List Char) :=
  match s with
  | c :: cs => if isPyWs c then some (dropWsGreedy cs) else none
  | [] => none

/-- Match `lit\s*\(`. -/
def matchLitWsParen (lit : String) (s : List Char) : Option (List Char) :=
  match matchLit lit.data s with
  | some r =>
    match dropWsGreedy r with
    | '(' :: r2 => some r2
    | _ => none
  | none => none

/-- Try `sub` at offsets `k, k-1, …, 0` into `s` (regex backtracking order
for a greedy class: longest consumption first). -/
def tryAtOffsetsDesc (sub : List Char → Option (List Char)) (s : List Char) :
    Nat → Option (List Char)
  | 0 => sub s
  | k+1 =>
    match sub (s.drop (k+1)) with
    | some r => some r
    | none => tryAtOffsetsDesc sub s k

/-- Greedy `[^)]*` followed by `sub`. -/
def greedyNonParenThen (sub : List Char → Option (List Char)) (s : List Char) :
    Option (List Char) :=
  tryAtOffsetsDesc sub s ((s.takeWhile (fun c => c ≠ ')')).length)

/-- `eval\s*\(` -/
def matchEvalCall (s : List Char) : Option (List Char) := matchLitWsParen "eval" s

/-- `exec\s*\(` -/
def matchExecCall (s : List Char) : Option (List Char) := matchLitWsParen "exec" s

/-- `os\.system\s*\(|subprocess\.call\s*\([^)]*shell\s*=\s*True` -/
def matchShellInjection (s : List Char) : Option (List Char) :=
  match matchLitWsParen "os.system" s with
  | some r => some r
  | none =>
    match matchLitWsParen "subprocess.call" s with
    | some r =>
      greedyNonParenThen (fun t =>
        match matchLit "shell".data t with
        | some t1 =>
          match dropWsGreedy t1 with
          | '=' :: t2 => matchLit "True".data (dropWsGreedy t2)
          | _ => none
        | none => none) r
    | none => none

/-- `["'][^"']+["']` (the quoted value of a hardcoded secret). -/
def matchQuotedValue (s : List Char) : Option (List Char) :=
  match s with
  | c :: cs =>
    if c = '"' || c = '\x27' then
      let run := cs.takeWhile (fun d => ¬ (d = '"' || d = '\x27'))
      if run.length = 0 then none
      else
        match cs.drop run.length with
        | d :: rest => if d = '"' || d = '\x27' then some rest else none
        | [] => none
    else none
  | [] => none

/-- `key\s*=\s*["'][^"']+["']` with `re.IGNORECASE` on the key. -/
def matchSecretAssign (key : String) (s : List Char) : Option (List Char) :=
  match matchLitCI key.data s with
  | some r =>
    match dropWsGreedy r with
    | '=' :: r2 => matchQuotedValue (dropWsGreedy r2)
    | _ => none
  | none => none

/-- `password\s*=\s*["'][^"']+["']|api_key\s*=\s*["'][^"']+["']` (IGNORECASE). -/
def matchHardcodedSecret (s : List Char) : Option (List Char) :=
  match matchSecretAssign "password" s with
  | some r => some r
  | none => matchSecretAssign "api_key" s

/-- `execute\s*\([^)]*%[sf]|cursor\.execute\s*\([^)]*\+` -/
def matchSqlInjection (s : List Char) : Option (List Char) :=
  let branch1 :=
    match matchLitWsParen "execute" s with
    | some r =>
      greedyNonParenThen (fun t =>
        match t with
        | '%' :: c :: rest => if c = 's' || c = 'f' then some rest else none
        | _ => none) r
    | none => none
  match branch1 with
  | some r => some r
  | none =>
    match matchLitWsParen "cursor.execute" s with
    | some r =>
      greedyNonParenThen (fun t =>
        match t with
        | '+' :: rest => some rest
        | _ => none) r
    | none => none

/-- `isinstance\s*\(|hasattr\s*\(|assert\s+` -/
def matchInputValidation (s : List Char) : Option (List Char) :=
  match matchLitWsParen "isinstance" s with
  | some r => some r
  | none =>
    match matchLitWsParen "hasattr" s with
    | some r => some r
    | none =>
      match matchLit "assert".data s with
      | some r => matchWsPlus r
      | none => none

/-- `try\s*:|except\s+\w+:` -/
def matchExceptionHandling (s : List Char) : Option (List Char) :=
  let branch1 :=
    match matchLit "try".data s with
    | some r =>
      match dropWsGreedy r with
      | ':' :: r2 => some r2
      | _ => none
    | none => none
  match branch1 with
  | some r => some r
  | none =>
    match matchLit "except".data s with
    | some r =>
      match matchWsPlus r with
      | some r2 =>
        let run := r2.takeWhile isWordChar
        if run.length = 0 then none
        else
          match r2.drop run.length with
          | ':' :: rest => some rest
          | _ => none
      | none => none
    | none => none

/-- `logging\.|logger\.` -/
def matchLoggingUsage (s : List Char) : Option (List Char) :=
  match matchLit "logging.".data s with
  | some r => some r
  | none => matchLit "logger.".data s

/-- `re.findall` scan: count non-overlapping matches left to right.  Every
matcher above consumes at least one character, so fuel `length + 1`
suffices. -/
def countMatchesAux (m : List Char → Option (List Char)) :
    Nat → List Char → Nat
  | 0, _ => 0
  | fuel+1, s =>
    match m s with
    | some rest => 1 + countMatchesAux m fuel rest
    | none =>
      match s with
      | [] => 0
      | _ :: t => countMatchesAux m fuel t

/-- Number of `re.findall` matches of `m` in `s`. -/
def countMatches (m : List Char → Option (List Char)) (s : List Char) : Nat :=
  countMatchesAux m (s.length + 1) s

/-- The raw counts computed by `_analyze_security_quality`
(`security_issues` and `security_practices` dictionaries). -/
structure SecurityCounts where
  evalUsage : Nat
  execUsage : Nat
  shellInjection : Nat
  hardcodedSecrets : Nat
  sqlInjection : Nat
  inputValidation : Nat
  exceptionHandling : Nat
  loggingUsage : Nat
deriving DecidableEq, Repr

/-- All pattern counts of `_analyze_security_quality` over the module text. -/
def securityCounts (content : String) : SecurityCounts :=
  let s := content.data
  { evalUsage := countMatches matchEvalCall s
    execUsage := countMatches matchExecCall s
    shellInjection := countMatches matchShellInjection s
    hardcodedSecrets := countMatches matchHardcodedSecret s
    sqlInjection := countMatches matchSqlInjection s
    inputValidation := countMatches matchInputValidation s
    exceptionHandling := countMatches matchExceptionHandling s
    loggingUsage := countMatches matchLoggingUsage s }

/-- `total_issues = sum(security_issues.values())` -/
def totalIssues (c : SecurityCounts) : Nat :=
  c.evalUsage + c.execUsage + c.shellInjection + c.hardcodedSecrets + c.sqlInjection

/-- `total_practices = sum(security_practices.values())` -/
def totalPractices (c : SecurityCounts) : Nat :=
  c.inputValidation + c.exceptionHandling + c.loggingUsage

/-- The score computed by `_analyze_security_quality`:
`issue_penalty = min(1.0, total_issues * 0.2)`,
`practice_bonus = min(0.5, total_practices * 0.1)`,
`security_score = max(0.0, 1.0 - issue_penalty + practice_bonus)`.
Note the absence of an upper clamp on the final value. -/
def securityQualityScore (content : String) : ℚ :=
  let c := securityCounts content
  let issuePenalty : ℚ := min 1 ((totalIssues c : ℚ) * (2/10))
  let practiceBonus : ℚ := min (1/2) ((totalPractices c : ℚ) * (1/10))
  max 0 (1 - issuePenalty + practiceBonus)

/-! ### Aggregation: `_generate_global_recommendations` and `analyze_quality` -/

/-- Per-module assessment data: the fields of `QualityAssessment` that the
aggregation functions read. -/
structure Assessment where
  modulePath : String
  overallScore : ℚ
  recommendations : List String
deriving DecidableEq, Repr

/-- Distinct elements in first-occurrence order: the key order of the
Python dict `recommendation_counts` (insertion order). -/
def dedupFirstAux : List String → List String → List String
  | _, [] => []
  | seen, x :: xs =>
    if x ∈ seen then dedupFirstAux seen xs
    else x :: dedupFirstAux (x :: seen) xs

/-- Distinct elements of a list in first-occurrence order. -/
def dedupKeepFirst (l : List String) : List String := dedupFirstAux [] l

/-- Number of occurrences of `r` in `l` (the value
`recommendation_counts[r]` accumulates). -/
def occCount (r : String) : List String → Nat
  | [] => 0
  | x :: xs => (if x = r then 1 else 0) + occCount r xs

/-- `recommendation_counts` as an association list in insertion order:
each distinct recommendation paired with its number of occurrences in the
concatenated per-module lists. -/
def recommendationCounts (allRecs : List String) : List (String × Nat) :=
  (dedupKeepFirst allRecs).map (fun r => (r, occCount r allRecs))

/-- One step of a stable descending insertion sort on the count:
`x` (the earlier element) is placed before the first element whose count is
not larger, which is exactly the tie behaviour of Python's stable
`sorted(..., key=lambda x: x[1], reverse=True)`. -/
def insertByCountDesc (x : String × Nat) : List (String × Nat) → List (String × Nat)
  | [] => [x]
  | y :: ys => if x.2 < y.2 then y :: insertByCountDesc x ys else x :: y :: ys

/-- Stable sort by descending count. -/
def sortByCountDesc (l : List (String × Nat)) : List (String × Nat) :=
  l.foldr insertByCountDesc []

/-- `f"{rec} (affects {count} modules)"` -/
def annotateRec (r : String) (c : Nat) : String :=
  r ++ " (affects " ++ Nat.repr c ++ " modules)"

/-- `_generate_global_recommendations`: concatenate all modules'
recommendation lists, count exact-string frequency, sort by descending
frequency (stable), keep the top 10, and of those keep only the ones with
count > 1, annotated with their count. -/
def generateGlobalRecommendations (assessments : List Assessment) : List String :=
  if assessments = [] then []
  else
    let allRecommendations := (assessments.map (fun a => a.recommendations)).flatten
    let sortedRecs := sortByCountDesc (recommendationCounts allRecommendations)
    (sortedRecs.take 10).filterMap
      (fun p => if 1 < p.2 then some (annotateRec p.1 p.2) else none)

/-- A module entry of `code_analysis['modules']`: a structured record of
type `δ`, a bare string, or a value of any other type. -/
inductive ModuleEntry (δ : Type) where
  | dict (d : δ)
  | str (s : String)
  | other

/-- The per-module dispatch loop of `analyze_quality`: a bare-string entry
is logged and skipped, any other non-dict value is logged and skipped, and
a dict entry is scored by `_analyze_module_quality` — abstracted here as
`analyze`, which may raise — with a raised exception caught, logged, and
the module excluded from the results.  `getPath` models
`module.get('path', 'unknown')`. -/
def moduleAssessments {δ : Type} (getPath : δ → String)
    (analyze : δ → Except String Assessment) :
    List (ModuleEntry δ) → List (String × Assessment)
  | [] => []
  | .dict d :: rest =>
    match analyze d with
    | .ok a => (getPath d, a) :: moduleAssessments getPath analyze rest
    | .error _ => moduleAssessments getPath analyze rest
  | .str _ :: rest => moduleAssessments getPath analyze rest
  | .other :: rest => moduleAssessments getPath analyze rest

/-- The fields of the `analyze_quality` result that skipping affects:
the per-module assessments keyed by path, the global recommendations
computed from the successes only, and the metadata module count. -/
structure QualityResults where
  moduleAssessments : List (String × Assessment)
  recommendations : List String
  totalModulesAnalyzed : Nat

/-- `analyze_quality`, restricted to the result fields above. -/
def analyzeQuality {δ : Type} (getPath : δ → String)
    (analyze : δ → Except String Assessment)
    (modules : List (ModuleEntry δ)) : QualityResults :=
  let succ := moduleAssessments getPath analyze modules
  { moduleAssessments := succ
    recommendations := generateGlobalRecommendations (succ.map (fun p => p.2))
    totalModulesAnalyzed := succ.length }

/-! ### Claims about the deterministic metric engine and aggregator -/

/-- A module text made of five `isinstance(` occurrences: five
`input_validation` practice matches and no security-issue matches. -/
def c1FailingInput : String :=
  "isinstance(isinstance(isinstance(isinstance(isinstance("

/-- C1: the claim states that every metric scorer returns a score in
[0.0, 1.0], the security score being `clamp(1 − 0.2·issues + 0.1·practices
capped at 0.5, 0, 1)`.  The code computes
`max(0.0, 1.0 - issue_penalty + practice_bonus)` with no upper clamp, so a
module text with five good-practice matches and no issues scores 1.5,
contradicting the claimed invariant (and the `score: float  # 0.0 to 1.0`
documentation on `QualityMetric`). -/
theorem c1_security_score_exceeds_one :
    securityQualityScore c1FailingInput = 3/2 ∧
    ¬ securityQualityScore c1FailingInput ≤ 1 := by
  have h : securityCounts c1FailingInput = ⟨0, 0, 0, 0, 0, 5, 0, 0⟩ := by decide
  have hs : securityQualityScore c1FailingInput = 3/2 := by
    unfold securityQualityScore
    rw [h]
    norm_num [totalIssues, totalPractices]
  exact ⟨hs, by rw [hs]; norm_num⟩

/-- The total weight of a non-empty metric list with positive weights is
positive. -/
lemma sum_weights_pos {metrics : List (ℚ × ℚ)} (hne : metrics ≠ [])
    (hw : ∀ m ∈ metrics, 0 < m.2) : 0 < (metrics.map (fun m => m.2)).sum := by
  induction metrics with
  | nil => exact absurd rfl hne
  | cons a l ih =>
    simp only [List.map_cons, List.sum_cons]
    cases l with
    | nil => simpa using hw a (List.mem_cons_self a [])
    | cons b t =>
      have h2 := ih (by simp) (fun m hm => hw m (List.mem_cons_of_mem _ hm))
      have h1 := hw a (List.mem_cons_self a (b :: t))
      linarith

/-- C2: `_calculate_overall_score` returns Σ(score·weight)/Σ(weight),
returns 0.0 on an empty metric set, and for any non-empty metric set with
positive weights returns exactly 1 when all scores are 1 and exactly 0 when
all scores are 0. -/
theorem c2_overall_score_weighted_mean :
    calculateOverallScore [] = 0 ∧
    (∀ metrics : List (ℚ × ℚ), 0 < (metrics.map (fun m => m.2)).sum →
      calculateOverallScore metrics =
        (metrics.map (fun m => m.1 * m.2)).sum / (metrics.map (fun m => m.2)).sum) ∧
    (∀ metrics : List (ℚ × ℚ), metrics ≠ [] → (∀ m ∈ metrics, 0 < m.2) →
      ((∀ m ∈ metrics, m.1 = 1) → calculateOverallScore metrics = 1) ∧
      ((∀ m ∈ metrics, m.1 = 0) → calculateOverallScore metrics = 0)) := by
  refine ⟨by simp [calculateOverallScore], ?_, ?_⟩
  · intro metrics hpos
    simp only [calculateOverallScore]
    rw [if_pos hpos]
  · intro metrics hne hw
    have hpos := sum_weights_pos hne hw
    constructor
    · intro hone
      have hmap : metrics.map (fun m => m.1 * m.2) = metrics.map (fun m => m.2) := by
        apply List.map_congr_left
        intro m hm
        rw [hone m hm, one_mul]
      simp only [calculateOverallScore]
      rw [if_pos hpos, hmap, div_self (ne_of_gt hpos)]
    · intro hzero
      have hmap : (metrics.map (fun m => m.1 * m.2)).sum = 0 := by
        apply List.sum_eq_zero
        intro x hx
        rcases List.mem_map.mp hx with ⟨m, hm, hmx⟩
        rw [← hmx, hzero m hm, zero_mul]
      simp only [calculateOverallScore]
      rw [if_pos hpos, hmap, zero_div]

/-- Witness for C2: a one-metric list with score 1 and weight 1/2. -/
theorem c2_overall_score_weighted_mean_witness :
    ([((1 : ℚ), (1 : ℚ)/2)] ≠ []) ∧ calculateOverallScore [((1 : ℚ), (1 : ℚ)/2)] = 1 :=
  ⟨by simp,
    (c2_overall_score_weighted_mean.2.2 [((1 : ℚ), (1 : ℚ)/2)] (by simp)
      (by intro m hm; simp at hm; rw [hm]; norm_num)).1
      (by intro m hm; simp at hm; rw [hm])⟩

/-- C3: `_determine_quality_level` with default thresholds is a top-down
first-match lookup with closed lower bounds: score ≥ 0.85 is excellent,
≥ 0.70 good, ≥ 0.55 fair, ≥ 0.40 poor, otherwise critical; exactly 0.85 is
excellent and 0.8499 is good. -/
theorem c3_quality_level_thresholds :
    (∀ s : ℚ, 85/100 ≤ s → determineQualityLevel defaultThresholds s = .excellent) ∧
    (∀ s : ℚ, 70/100 ≤ s → s < 85/100 → determineQualityLevel defaultThresholds s = .good) ∧
    (∀ s : ℚ, 55/100 ≤ s → s < 70/100 → determineQualityLevel defaultThresholds s = .fair) ∧
    (∀ s : ℚ, 40/100 ≤ s → s < 55/100 → determineQualityLevel defaultThresholds s = .poor) ∧
    (∀ s : ℚ, s < 40/100 → determineQualityLevel defaultThresholds s = .critical) ∧
    determineQualityLevel defaultThresholds (85/100) = .excellent ∧
    determineQualityLevel defaultThresholds (8499/10000) = .good := by
  refine ⟨?_, ?_, ?_, ?_, ?_, ?_, ?_⟩
  · intro s h
    simp only [determineQualityLevel, defaultThresholds]
    rw [if_pos h]
  · intro s h1 h2
    simp only [determineQualityLevel, defaultThresholds]
    rw [if_neg (not_le.mpr h2), if_pos h1]
  · intro s h1 h2
    simp only [determineQualityLevel, defaultThresholds]
    rw [if_neg (not_le.mpr (by linarith)), if_neg (not_le.mpr h2), if_pos h1]
  · intro s h1 h2
    simp only [determineQualityLevel, defaultThresholds]
    rw [if_neg (not_le.mpr (by linarith)), if_neg (not_le.mpr (by linarith)),
      if_neg (not_le.mpr h2), if_pos h1]
  · intro s h
    simp only [determineQualityLevel, defaultThresholds]
    rw [if_neg (not_le.mpr (by linarith)), if_neg (not_le.mpr (by linarith)),
      if_neg (not_le.mpr (by linarith)), if_neg (not_le.mpr h)]
  · simp only [determineQualityLevel, defaultThresholds]
    rw [if_pos le_rfl]
  · simp only [determineQualityLevel, defaultThresholds]
    rw [if_neg (by norm_num), if_pos (by norm_num)]

/-- Witness for C3: a score of 0.9 is classified excellent. -/
theorem c3_quality_level_thresholds_witness :
    ((85 : ℚ)/100 ≤ 9/10) ∧ determineQualityLevel defaultThresholds (9/10) = .excellent :=
  ⟨by norm_num, c3_quality_level_thresholds.1 (9/10) (by norm_num)⟩

/-- Elements of an insertion are the inserted element or old elements. -/
lemma mem_insertByCountDesc {x y : String × Nat} :
    ∀ {l : List (String × Nat)}, y ∈ insertByCountDesc x l → y = x ∨ y ∈ l := by
  intro l
  induction l with
  | nil =>
    intro h
    simp only [insertByCountDesc, List.mem_singleton] at h
    exact Or.inl h
  | cons a t ih =>
    intro h
    simp only [insertByCountDesc] at h
    by_cases hc : x.2 < a.2
    · rw [if_pos hc] at h
      rcases List.mem_cons.mp h with h1 | h1
      · exact Or.inr (List.mem_cons.mpr (Or.inl h1))
      · rcases ih h1 with h2 | h2
        · exact Or.inl h2
        · exact Or.inr (List.mem_cons.mpr (Or.inr h2))
    · rw [if_neg hc] at h
      rcases List.mem_cons.mp h with h1 | h1
      · exact Or.inl h1
      · exact Or.inr h1

/-- Insertion preserves descending-by-count sortedness. -/
lemma pairwise_insertByCountDesc {x : String × Nat} :
    ∀ {l : List (String × Nat)},
      l.Pairwise (fun p q => q.2 ≤ p.2) →
      (insertByCountDesc x l).Pairwise (fun p q => q.2 ≤ p.2) := by
  intro l
  induction l with
  | nil => intro _; simp [insertByCountDesc]
  | cons a t ih =>
    intro h
    rcases List.pairwise_cons.mp h with ⟨ha, ht⟩
    simp only [insertByCountDesc]
    by_cases hc : x.2 < a.2
    · rw [if_pos hc]
      refine List.pairwise_cons.mpr ⟨?_, ih ht⟩
      intro y hy
      rcases mem_insertByCountDesc hy with h1 | h1
      · rw [h1]; exact le_of_lt hc
      · exact ha y h1
    · rw [if_neg hc]
      refine List.pairwise_cons.mpr ⟨?_, h⟩
      intro y hy
      rcases List.mem_cons.mp hy with h1 | h1
      · rw [h1]; exact Nat.le_of_not_lt hc
      · exact le_trans (ha y h1) (Nat.le_of_not_lt hc)

/-- The sort is descending by count. -/
lemma pairwise_sortByCountDesc (l : List (String × Nat)) :
    (sortByCountDesc l).Pairwise (fun p q => q.2 ≤ p.2) := by
  induction l with
  | nil => simp [sortByCountDesc]
  | cons a t ih => exact pairwise_insertByCountDesc ih

/-- The sort introduces no new elements. -/
lemma mem_sortByCountDesc {p : String × Nat} :
    ∀ {l : List (String × Nat)}, p ∈ sortByCountDesc l → p ∈ l := by
  intro l
  induction l with
  | nil => intro h; simp only [sortByCountDesc, List.foldr_nil] at h; exact absurd h (List.not_mem_nil p)
  | cons a t ih =>
    intro h
    have h2 : p ∈ insertByCountDesc a (sortByCountDesc t) := h
    rcases mem_insertByCountDesc h2 with h1 | h1
    · exact List.mem_cons.mpr (Or.inl h1)
    · exact List.mem_cons.mpr (Or.inr (ih h1))

lemma occCount_append (r : String) (l1 l2 : List String) :
    occCount r (l1 ++ l2) = occCount r l1 + occCount r l2 := by
  induction l1 with
  | nil => simp [occCount]
  | cons x xs ih => simp [occCount, ih, Nat.add_assoc]

/-- On a duplicate-free list, the occurrence count is the membership
indicator. -/
lemma occCount_nodup {r : String} :
    ∀ {l : List String}, l.Nodup → occCount r l = if r ∈ l then 1 else 0 := by
  intro l
  induction l with
  | nil => intro _; simp [occCount]
  | cons x xs ih =>
    intro h
    rcases List.nodup_cons.mp h with ⟨hx, hxs⟩
    by_cases hxr : x = r
    · subst hxr
      simp [occCount, ih hxs, hx]
    · have hrx : ¬ r = x := fun he => hxr he.symm
      simp [occCount, ih hxs, hxr, List.mem_cons, hrx]

/-- With duplicate-free per-module lists, the occurrence count of a
recommendation across the concatenation equals the number of modules whose
list contains it. -/
lemma occCount_flatten_eq_moduleCount (r : String) :
    ∀ assessments : List Assessment,
      (∀ a ∈ assessments, a.recommendations.Nodup) →
      occCount r ((assessments.map (fun a => a.recommendations)).flatten) =
        (assessments.filter (fun a => decide (r ∈ a.recommendations))).length := by
  intro assessments
  induction assessments with
  | nil => intro _; simp [occCount]
  | cons a t ih =>
    intro hnd
    have ha := hnd a (List.mem_cons_self a t)
    have ht := fun x hx => hnd x (List.mem_cons_of_mem a hx)
    simp only [List.map_cons, List.flatten_cons]
    rw [occCount_append, occCount_nodup ha, ih ht]
    by_cases hm : r ∈ a.recommendations
    · rw [if_pos hm]
      simp [List.filter_cons, hm, Nat.add_comm]
    · rw [if_neg hm]
      simp [List.filter_cons, hm]

/-- Unconditional characterization of `_generate_global_recommendations`
(the empty-assessment guard agrees with the general formula). -/
lemma generateGlobalRecommendations_eq (assessments : List Assessment) :
    generateGlobalRecommendations assessments =
      ((sortByCountDesc (recommendationCounts
          ((assessments.map (fun a => a.recommendations)).flatten))).take 10).filterMap
        (fun p => if 1 < p.2 then some (annotateRec p.1 p.2) else none) := by
  by_cases h : assessments = []
  · subst h
    simp [generateGlobalRecommendations, recommendationCounts, dedupKeepFirst,
      dedupFirstAux, sortByCountDesc]
  · simp [generateGlobalRecommendations, h]

/-- A five-module scenario: one recommendation shared by three modules,
one occurring in a single module. -/
def c8Example : List Assessment :=
  [⟨"m1", 0, ["Add unit tests for functions"]⟩,
   ⟨"m2", 0, ["Add unit tests for functions"]⟩,
   ⟨"m3", 0, ["Add unit tests for functions", "Add module-level docstring"]⟩,
   ⟨"m4", 0, []⟩,
   ⟨"m5", 0, []⟩]

/-- C8: `_generate_global_recommendations` keeps the top 10 recommendations
by descending exact-string frequency, drops those occurring in at most one
module, and annotates each kept item with `(affects N modules)` where `N`
is the number of modules containing it (assuming duplicate-free per-module
lists, which `_generate_module_recommendations` guarantees via
`list(set(...))`).  Concretely, in a five-module scenario a recommendation
held by three modules is kept with suffix `(affects 3 modules)` and a
single-module recommendation is dropped. -/
theorem c8_global_recommendations (assessments : List Assessment)
    (hnd : ∀ a ∈ assessments, a.recommendations.Nodup) :
    (generateGlobalRecommendations assessments).length ≤ 10 ∧
    generateGlobalRecommendations assessments =
      ((sortByCountDesc (recommendationCounts
          ((assessments.map (fun a => a.recommendations)).flatten))).take 10).filterMap
        (fun p => if 1 < p.2 then some (annotateRec p.1 p.2) else none) ∧
    (sortByCountDesc (recommendationCounts
        ((assessments.map (fun a => a.recommendations)).flatten))).Pairwise
      (fun p q => q.2 ≤ p.2) ∧
    (∀ item ∈ generateGlobalRecommendations assessments, ∃ r c,
      item = annotateRec r c ∧ 2 ≤ c ∧
      c = (assessments.filter (fun a => decide (r ∈ a.recommendations))).length) ∧
    generateGlobalRecommendations c8Example =
      [annotateRec "Add unit tests for functions" 3] := by
  refine ⟨?_, generateGlobalRecommendations_eq assessments, pairwise_sortByCountDesc _,
    ?_, by decide⟩
  · rw [generateGlobalRecommendations_eq assessments]
    exact le_trans (List.length_filterMap_le _ _) (List.length_take_le _ _)
  · intro item hitem
    rw [generateGlobalRecommendations_eq assessments] at hitem
    rcases List.mem_filterMap.mp hitem with ⟨p, hp, hpsome⟩
    by_cases h2 : 1 < p.2
    · rw [if_pos h2] at hpsome
      refine ⟨p.1, p.2, (Option.some.inj hpsome).symm, h2, ?_⟩
      have hps := List.take_subset 10 _ hp
      have hpc := mem_sortByCountDesc hps
      rcases List.mem_map.mp hpc with ⟨r, _, hre⟩
      have h1 : p.1 = r := by rw [← hre]
      have hcv : p.2 = occCount r
          ((assessments.map (fun a => a.recommendations)).flatten) := by rw [← hre]
      rw [hcv, h1, occCount_flatten_eq_moduleCount r assessments hnd]
    · rw [if_neg h2] at hpsome
      exact absurd hpsome (by simp)

/-- Witness for C8: the concrete five-module scenario satisfies the
duplicate-freeness hypothesis and the stated output bound. -/
theorem c8_global_recommendations_witness :
    (∀ a ∈ c8Example, a.recommendations.Nodup) ∧
    (generateGlobalRecommendations c8Example).length ≤ 10 :=
  ⟨by decide, (c8_global_recommendations c8Example (by decide)).1⟩

/-- The dispatch loop of `analyze_quality` keeps exactly the dict-typed
modules whose analysis succeeds. -/
lemma moduleAssessments_eq_filterMap {δ : Type} (getPath : δ → String)
    (analyze : δ → Except String Assessment) :
    ∀ modules : List (ModuleEntry δ),
      moduleAssessments getPath analyze modules = modules.filterMap (fun m =>
        match m with
        | .dict d =>
          match analyze d with
          | .ok a => some (getPath d, a)
          | .error _ => none
        | .str _ => none
        | .other => none) := by
  intro modules
  induction modules with
  | nil => rfl
  | cons m rest ih =>
    cases m with
    | dict d =>
      cases hana : analyze d with
      | ok a => simp only [moduleAssessments, hana, List.filterMap_cons, ih]
      | error e => simp only [moduleAssessments, hana, List.filterMap_cons, ih]
    | str s => simp only [moduleAssessments, List.filterMap_cons, ih]
    | other => simp only [moduleAssessments, List.filterMap_cons, ih]

/-- C9: `analyze_quality` skips bare-string (and other non-dict) module
entries and catches per-module scoring exceptions: the resulting
assessments are exactly the dict entries whose analysis succeeded, and the
rollup (module count, global recommendations) is computed from those
successes only — the run always produces a result. -/
theorem c9_analyze_quality_skips_invalid (δ : Type) (getPath : δ → String)
    (analyze : δ → Except String Assessment) (modules : List (ModuleEntry δ)) :
    (analyzeQuality getPath analyze modules).moduleAssessments =
      modules.filterMap (fun m =>
        match m with
        | .dict d =>
          match analyze d with
          | .ok a => some (getPath d, a)
          | .error _ => none
        | .str _ => none
        | .other => none) ∧
    (analyzeQuality getPath analyze modules).totalModulesAnalyzed =
      (analyzeQuality getPath analyze modules).moduleAssessments.length ∧
    (analyzeQuality getPath analyze modules).recommendations =
      generateGlobalRecommendations
        ((analyzeQuality getPath analyze modules).moduleAssessments.map
          (fun p => p.2)) :=
  ⟨moduleAssessments_eq_filterMap getPath analyze modules, rfl, rfl⟩

/-! ### JSON values and `json.loads`

`_parse_json_response` recovers JSON from free-form LLM text.  `JValue`
models a parsed JSON document and `jsonParse` models `json.loads` (strict
RFC grammar; numbers as rationals; the non-standard `NaN`/`Infinity`
literals Python additionally accepts are not modelled — no verified input
involves them). -/

/-- A parsed JSON value. -/
inductive JValue where
  | null
  | bool (b : Bool)
  | num (q : ℚ)
  | str (s : String)
  | arr (elems : List JValue)
  | obj (fields : List (String × JValue))

/-- JSON inter-token whitespace. -/
def isJsonWs (c : Char) : Bool := c = ' ' || c = '\t' || c = '\n' || c = '\r'

/-- Skip inter-token whitespace. -/
def skipJsonWs (s : List Char) : List Char := s.dropWhile isJsonWs

/-- Hex digit value. -/
def hexVal (c : Char) : Option Nat :=
  if '0' ≤ c ∧ c ≤ '9' then some (c.toNat - '0'.toNat)
  else if 'a' ≤ c ∧ c ≤ 'f' then some (c.toNat - 'a'.toNat + 10)
  else if 'A' ≤ c ∧ c ≤ 'F' then some (c.toNat - 'A'.toNat + 10)
  else none

/-- Parse the body of a JSON string (after the opening quote), handling
escapes; returns the decoded string and the remainder. -/
def parseStringBody : Nat → List Char → List Char → Option (String × List Char)
  | 0, _, _ => none
  | fuel+1, acc, s =>
    match s with
    | [] => none
    | '"' :: rest => some (String.mk acc.reverse, rest)
    | '\\' :: e :: rest =>
      match e with
      | '"' => parseStringBody fuel ('"' :: acc) rest
      | '\\' => parseStringBody fuel ('\\' :: acc) rest
      | '/' => parseStringBody fuel ('/' :: acc) rest
      | 'b' => parseStringBody fuel ('\x08' :: acc) rest
      | 'f' => parseStringBody fuel ('\x0c' :: acc) rest
      | 'n' => parseStringBody fuel ('\n' :: acc) rest
      | 'r' => parseStringBody fuel ('\r' :: acc) rest
      | 't' => parseStringBody fuel ('\t' :: acc) rest
      | 'u' =>
        match rest with
        | h1 :: h2 :: h3 :: h4 :: rest2 =>
          match hexVal h1, hexVal h2, hexVal h3, hexVal h4 with
          | some a, some b, some c, some d =>
            parseStringBody fuel (Char.ofNat (((a*16+b)*16+c)*16+d) :: acc) rest2
          | _, _, _, _ => none
        | _ => none
      | _ => none
    | c :: rest =>
      if c.toNat < 32 then none else parseStringBody fuel (c :: acc) rest

/-- Leading decimal-digit run. -/
def takeDigits (s : List Char) : List Char × List Char :=
  (s.takeWhile Char.isDigit, s.dropWhile Char.isDigit)

/-- Value of a digit run. -/
def digitsVal (ds : List Char) : Nat :=
  ds.foldl (fun a c => a * 10 + (c.toNat - '0'.toNat)) 0

/-- Exponent digits of a JSON number. -/
def parseExpDigits (v : ℚ) (negExp : Bool) (s : List Char) :
    Option (JValue × List Char) :=
  match s with
  | c :: _ =>
    if c.isDigit then
      let p := takeDigits s
      let k := digitsVal p.1
      some (.num (if negExp then v / (10:ℚ)^k else v * (10:ℚ)^k), p.2)
    else none
  | [] => none

/-- Optional exponent part of a JSON number. -/
def parseNumberExpPart (v : ℚ) (s : List Char) : Option (JValue × List Char) :=
  match s with
  | e :: rest =>
    if e = 'e' ∨ e = 'E' then
      match rest with
      | '+' :: r2 => parseExpDigits v false r2
      | '-' :: r2 => parseExpDigits v true r2
      | _ => parseExpDigits v false rest
    else some (.num v, s)
  | [] => some (.num v, [])

/-- Optional fraction part of a JSON number (given the integer part). -/
def parseNumberFrac (neg : Bool) (ip : Nat) (s : List Char) :
    Option (JValue × List Char) :=
  match s with
  | '.' :: rest =>
    match rest with
    | c :: _ =>
      if c.isDigit then
        let p := takeDigits rest
        let v : ℚ := (ip : ℚ) + (digitsVal p.1 : ℚ) / (10:ℚ)^p.1.length
        parseNumberExpPart (if neg then -v else v) p.2
      else none
    | [] => none
  | _ => parseNumberExpPart (if neg then -((ip : ℚ)) else (ip : ℚ)) s

/-- JSON number after an optional leading minus: `0` or a nonzero digit
run, then fraction and exponent. -/
def parseNumberAfterSign (neg : Bool) (s : List Char) :
    Option (JValue × List Char) :=
  match s with
  | c :: rest =>
    if c = '0' then parseNumberFrac neg 0 rest
    else if c.isDigit then
      let p := takeDigits rest
      parseNumberFrac neg (digitsVal (c :: p.1)) p.2
    else none
  | [] => none

mutual

/-- Parse one JSON value at the head of the input (no leading whitespace). -/
def parseValue : Nat → List Char → Option (JValue × List Char)
  | 0, _ => none
  | fuel+1, s =>
    match s with
    | '\x7b' :: rest => parseObjBody fuel (skipJsonWs rest)
    | '[' :: rest => parseArrBody fuel (skipJsonWs rest)
    | '"' :: rest =>
      (parseStringBody (rest.length + 1) [] rest).map (fun p => (.str p.1, p.2))
    | 't' :: 'r' :: 'u' :: 'e' :: rest => some (.bool true, rest)
    | 'f' :: 'a' :: 'l' :: 's' :: 'e' :: rest => some (.bool false, rest)
    | 'n' :: 'u' :: 'l' :: 'l' :: rest => some (.null, rest)
    | '-' :: rest => parseNumberAfterSign true rest
    | c :: _ => if c.isDigit then parseNumberAfterSign false s else none
    | [] => none

/-- Object body after `{` (whitespace skipped). -/
def parseObjBody : Nat → List Char → Option (JValue × List Char)
  | 0, _ => none
  | fuel+1, s =>
    match s with
    | '\x7d' :: rest => some (.obj [], rest)
    | _ => parseMembers fuel s []

/-- Comma-separated object members. -/
def parseMembers : Nat → List Char → List (String × JValue) →
    Option (JValue × List Char)
  | 0, _, _ => none
  | fuel+1, s, acc =>
    match s with
    | '"' :: rest =>
      match parseStringBody (rest.length + 1) [] rest with
      | some (k, r1) =>
        match skipJsonWs r1 with
        | ':' :: r2 =>
          match parseValue fuel (skipJsonWs r2) with
          | some (v, r3) =>
            match skipJsonWs r3 with
            | ',' :: r4 => parseMembers fuel (skipJsonWs r4) (acc ++ [(k, v)])
            | '\x7d' :: r4 => some (.obj (acc ++ [(k, v)]), r4)
            | _ => none
          | none => none
        | _ => none
      | none => none
    | _ => none

/-- Array body after `[` (whitespace skipped). -/
def parseArrBody : Nat → List Char → Option (JValue × List Char)
  | 0, _ => none
  | fuel+1, s =>
    match s with
    | ']' :: rest => some (.arr [], rest)
    | _ => parseItems fuel s []

/-- Comma-separated array items. -/
def parseItems : Nat → List Char → List JValue → Option (JValue × List Char)
  | 0, _, _ => none
  | fuel+1, s, acc =>
    match parseValue fuel s with
    | some (v, r1) =>
      match skipJsonWs r1 with
      | ',' :: r2 => parseItems fuel (skipJsonWs r2) (acc ++ [v])
      | ']' :: r2 => some (.arr (acc ++ [v]), r2)
      | _ => none
    | none => none

end

/-- `json.loads`: a single JSON document, with surrounding whitespace
allowed and the whole input consumed. -/
def jsonParse (s : List Char) : Option JValue :=
  match parseValue (4 * s.length + 8) (skipJsonWs s) with
  | some (v, rest) => if skipJsonWs rest = [] then some v else none
  | none => none

/-! ### Python string primitives used by `_parse_json_response` -/

/-- Python `str.strip()` (ASCII whitespace). -/
def pyStripChars (s : List Char) : List Char :=
  ((s.dropWhile isPyWs).reverse.dropWhile isPyWs).reverse

/-- Python `str.lower()` (ASCII). -/
def pyLower (s : List Char) : List Char := s.map Char.toLower

/-- Whether `p` is a prefix of `s`. -/
def isPrefixOfChars : List Char → List Char → Bool
  | [], _ => true
  | _ :: _, [] => false
  | p :: ps, c :: cs => p = c && isPrefixOfChars ps cs

/-- Python `str.find(pat)` from index `i`: the first index where `pat`
occurs, or none. -/
def findSubAux (pat : List Char) : List Char → Nat → Option Nat
  | [], i => if pat.isEmpty then some i else none
  | s@(_ :: t), i => if isPrefixOfChars pat s then some i else findSubAux pat t (i+1)

/-- Python `pat in s`. -/
def containsSub (pat s : List Char) : Bool := (findSubAux pat s 0).isSome

/-- Python `str.find(c)` for a single character. -/
def firstIndexOf (c : Char) (s : List Char) : Option Nat := findSubAux [c] s 0

/-- Python `str.rfind(c)` helper. -/
def lastIndexOfAux (c : Char) : List Char → Nat → Option Nat → Option Nat
  | [], _, best => best
  | x :: t, i, best => lastIndexOfAux c t (i+1) (if x = c then some i else best)

/-- Python `str.rfind(c)`: the last index of `c`, or none. -/
def lastIndexOf (c : Char) (s : List Char) : Option Nat := lastIndexOfAux c s 0 none

/-- Python slice `s[a:b]`. -/
def sliceChars (s : List Char) (a b : Nat) : List Char := (s.drop a).take (b - a)

/-- `[a-zA-Z]*` run after an opening fence marker. -/
def dropAsciiLetters (s : List Char) : List Char := s.dropWhile (fun c => c.isAlpha)

/-- `$`-in-MULTILINE check for the position after a closing fence:
end of string or just before a newline. -/
def atLineEndHere (s : List Char) : Bool := s.isEmpty || s.head? == some '\n'

/-- `re.sub(r"^```[a-zA-Z]*\n?|\n?```$", "", text, flags=re.MULTILINE)`:
left-to-right scan over the original text removing non-overlapping matches.
At a line start, a fence-plus-letters-plus-optional-newline run is removed
(first alternation branch); otherwise an optional-newline-plus-fence that
ends a line is removed (second branch, greedy `\n?` first); all other
characters are kept. -/
def removeFencesAux : Nat → Bool → List Char → List Char
  | 0, _, s => s
  | _+1, _, [] => []
  | fuel+1, atLineStart, s@(c :: rest) =>
    if atLineStart ∧ isPrefixOfChars "```".data s then
      let s1 := dropAsciiLetters (s.drop 3)
      match s1 with
      | '\n' :: r => removeFencesAux fuel true r
      | _ => removeFencesAux fuel false s1
    else if c = '\n' ∧ isPrefixOfChars "```".data rest ∧ atLineEndHere (rest.drop 3) then
      removeFencesAux fuel false (rest.drop 3)
    else if isPrefixOfChars "```".data s ∧ atLineEndHere (s.drop 3) then
      removeFencesAux fuel false (s.drop 3)
    else
      c :: removeFencesAux fuel (c = '\n') rest

/-- The fence-stripping substitution applied by strategy 2. -/
def removeFences (s : List Char) : List Char :=
  removeFencesAux (s.length + 1) true s

/-- `json_prefixes` from `_parse_json_response` (note: the containment test
in the source checks these, verbatim, against the *lowercased* text). -/
def jsonPrefixes : List String :=
  ["Here\x27s the JSON response:", "Here is the JSON:", "JSON response:",
   "Response:", "```json", "The analysis results:", "Analysis:"]

/-- Strategy 2: strip markdown code fences and reparse (attempted only when
the substitution changed the text). -/
def strat2 (t : List Char) : Option JValue :=
  let cleaned := removeFences t
  if cleaned ≠ t then jsonParse (pyStripChars cleaned) else none

/-- Strategy 3: substring from the first `{` to the last `}`. -/
def strat3 (t : List Char) : Option JValue :=
  match firstIndexOf '\x7b' t, lastIndexOf '\x7d' t with
  | some a, some b => if a < b then jsonParse (sliceChars t a (b+1)) else none
  | _, _ => none

/-- Strategy 4, one prefix: if the (verbatim) prefix occurs in the
lowercased text, parse what follows it, falling back to the first-`{`
last-`}` heuristic on that remainder. -/
def strat4One (t : List Char) (pre : List Char) : Option JValue :=
  if containsSub pre (pyLower t) then
    match findSubAux (pyLower pre) (pyLower t) 0 with
    | some pos =>
      let after := pyStripChars (t.drop (pos + pre.length))
      match jsonParse after with
      | some v => some v
      | none =>
        match firstIndexOf '\x7b' after, lastIndexOf '\x7d' after with
        | some a, some b =>
          if a < b then jsonParse (sliceChars after a (b+1)) else none
        | _, _ => none
    | none => none
  else none

/-- Strategy 4: the introductory-prefix loop. -/
def strat4 (t : List Char) : List (List Char) → Option JValue
  | [] => none
  | pre :: rest =>
    match strat4One t pre with
    | some v => some v
    | none => strat4 t rest

/-- Loop of the regex `\{[^{}]*(?:\{[^{}]*\}[^{}]*)*\}` after the opening
brace; returns the total match length. -/
def braceMatchLoop : Nat → List Char → Nat → Option Nat
  | 0, _, _ => none
  | fuel+1, s, n =>
    let run := s.takeWhile (fun c => ¬ (c = '\x7b' ∨ c = '\x7d'))
    let s1 := s.drop run.length
    let n1 := n + run.length
    match s1 with
    | '\x7d' :: _ => some (n1 + 1)
    | '\x7b' :: s2 =>
      let run2 := s2.takeWhile (fun c => ¬ (c = '\x7b' ∨ c = '\x7d'))
      match s2.drop run2.length with
      | '\x7d' :: s3 => braceMatchLoop fuel s3 (n1 + run2.length + 2)
      | _ => none
    | _ => none

/-- Length of a match of `\{[^{}]*(?:\{[^{}]*\}[^{}]*)*\}` at the head of
`s`, if any (the regex is deterministic: each class run is bounded by the
surrounding braces). -/
def braceMatchLen (s : List Char) : Option Nat :=
  match s with
  | '\x7b' :: rest => braceMatchLoop (rest.length + 1) rest 1
  | _ => none

/-- `re.findall` of the brace-balanced-object regex: non-overlapping
matches left to right. -/
def findAllBraceObjs : Nat → List Char → List (List Char)
  | 0, _ => []
  | fuel+1, s =>
    match braceMatchLen s with
    | some len => s.take len :: findAllBraceObjs fuel (s.drop len)
    | none =>
      match s with
      | [] => []
      | _ :: t => findAllBraceObjs fuel t

/-- Strategy 5: parse each brace-balanced-looking substring, returning the
first that parses. -/
def strat5 (t : List Char) : Option JValue :=
  (findAllBraceObjs (t.length + 1) t).findSome? jsonParse

/-- `_parse_json_response`: empty/whitespace text yields `{}`; otherwise
the stripped text goes through direct parse, fence-stripping, the
first-`{`-to-last-`}` substring, the introductory-prefix heuristics and the
brace-regex extraction, in that order; if every strategy fails the result
is `{}` — no input raises. -/
def parseJsonResponse (text : String) : JValue :=
  let t := pyStripChars text.data
  if t = [] then JValue.obj []
  else
    match jsonParse t with
    | some v => v
    | none =>
      match strat2 t with
      | some v => v
      | none =>
        match strat3 t with
        | some v => v
        | none =>
          match strat4 t (jsonPrefixes.map (fun p => p.data)) with
          | some v => v
          | none =>
            match strat5 t with
            | some v => v
            | none => JValue.obj []

/-! ### LLM client: caching and retries (`_call_openai`) -/

/-- The transient-failure markers checked by `_call_openai`. -/
def retryTerms : List String :=
  ["429", "500", "502", "503", "504", "timeout", "temporarily unavailable",
   "service unavailable", "rate limit"]

/-- `is_retryable`: `str(e).lower()` contains one of the markers. -/
def isRetryableError (msg : String) : Bool :=
  retryTerms.any (fun term => containsSub term.data (pyLower msg.data))

/-- One cache file: `{response, timestamp, model}`.  Timestamps are hours
on a rational clock. -/
structure CacheEntry where
  response : String
  timestamp : ℚ
  model : String
deriving DecidableEq

/-- The `QualityLLMIntegration` configuration, plus the behaviour of the
external chat-completions service: `svc n` is the outcome of the n-th
external call made by this client (`.ok` raw content or `.error` message).
-/
structure LLMConfig where
  openaiEnabled : Bool
  model : String
  maxRetries : Nat
  retryBackoffSeconds : ℚ
  cacheEnabled : Bool
  cacheTtlHours : ℚ
  svc : Nat → Except String String

/-- The world state threaded through the client: the filesystem cache, the
clock (hours), the number of external calls performed, and the `time.sleep`
delays performed (seconds). -/
structure LLMState where
  cache : List (String × CacheEntry)
  now : ℚ
  calls : Nat
  sleeps : List ℚ

/-- `_get_cache_key`: md5 of `f"{model}:{prompt}"`, modelled by the
pre-hash content itself (the digest only needs to be injective here). -/
def cacheKey (model prompt : String) : String := model ++ ":" ++ prompt

/-- `_get_cached_response`: `None` when caching is disabled or the file is
absent; an entry past its TTL is deleted on read and treated as a miss;
otherwise the cached response is returned (cache unchanged). -/
def getCachedResponse (cfg : LLMConfig) (key : String) (st : LLMState) :
    Option String × List (String × CacheEntry) :=
  if ¬ cfg.cacheEnabled then (none, st.cache)
  else
    match st.cache.lookup key with
    | none => (none, st.cache)
    | some e =>
      if e.timestamp + cfg.cacheTtlHours < st.now then
        (none, st.cache.eraseP (fun p => p.1 == key))
      else (some e.response, st.cache)

/-- `_cache_response`: persist `{response, timestamp := now, model}` under
the key (a no-op when caching is disabled). -/
def cacheResponse (cfg : LLMConfig) (key response : String) (st : LLMState) :
    LLMState :=
  if cfg.cacheEnabled then
    { st with cache := (key, ⟨response, st.now, cfg.model⟩) ::
        st.cache.eraseP (fun p => p.1 == key) }
  else st

/-- The `for attempt in range(max_retries)` loop of `_call_openai`.
`fuel` is the number of remaining attempts (`max_retries - attempt`), so
the `attempt < max_retries - 1` retry condition is `fuel ≠ 0` after this
attempt.  Every attempt performs one (counted) external call; a success is
stripped and, if empty, becomes a `ValueError` classified like any other
error; otherwise it is cached and returned.  A retryable failure sleeps
`retry_backoff_seconds * 2**attempt` and continues; any other failure, or
the last attempt, re-raises.  With `max_retries = 0` the loop body never
runs and a generic `RuntimeError` is raised. -/
def callAttempts (cfg : LLMConfig) (key : String) :
    Nat → Nat → LLMState → Except String String × LLMState
  | 0, _, st => (.error "OpenAI call failed without exception detail", st)
  | fuel+1, attempt, st =>
    let st1 : LLMState := { st with calls := st.calls + 1 }
    let result : Except String String :=
      match cfg.svc st.calls with
      | .ok raw =>
        let content := String.mk (pyStripChars raw.data)
        if content = "" then .error "Empty response content from OpenAI"
        else .ok content
      | .error e => .error e
    match result with
    | .ok content => (.ok content, cacheResponse cfg key content st1)
    | .error e =>
      if fuel ≠ 0 ∧ isRetryableError e then
        callAttempts cfg key fuel (attempt + 1)
          { st1 with sleeps := st1.sleeps ++ [cfg.retryBackoffSeconds * 2 ^ attempt] }
      else (.error e, st1)

/-- `_call_openai`: check the cache first — a non-empty cached value is
returned with no external call — then run the retry loop.  (The
client-not-initialized guard is omitted: the client exists whenever the
LLM is enabled, the only situation in which this function is reached.) -/
def callOpenai (cfg : LLMConfig) (prompt : String) (st : LLMState) :
    Except String String × LLMState :=
  let key := cacheKey cfg.model prompt
  let cr := getCachedResponse cfg key st
  let st1 : LLMState := { st with cache := cr.2 }
  match cr.1 with
  | some r =>
    if r ≠ "" then (.ok r, st1)
    else callAttempts cfg key cfg.maxRetries 0 st1
  | none => callAttempts cfg key cfg.maxRetries 0 st1

/-! ### `enhance_quality_assessment` and its fallbacks -/

/-- One entry of the `quality_metrics` mapping handed to the client: the
fields the verified code paths read (`metric.get('score', 0)`,
`metric.get('weight', 0)`).  All entries in this model are dict-shaped. -/
structure MetricData where
  score : ℚ
  weight : ℚ
deriving DecidableEq

/-- The `quality_metrics` mapping, in insertion order. -/
abbrev Metrics := List (String × MetricData)

/-- Python `str.replace('_', ' ')` for metric names. -/
def replaceUnderscores (s : String) : String :=
  String.mk (s.data.map (fun c => if c = '_' then ' ' else c))

/-- Python `str.title()` scan: uppercase a letter following a non-letter,
lowercase the rest. -/
def pyTitleAux : Bool → List Char → List Char
  | _, [] => []
  | prevAlpha, c :: rest =>
    if c.isAlpha then
      (if prevAlpha then c.toLower else c.toUpper) :: pyTitleAux true rest
    else c :: pyTitleAux false rest

/-- Python `str.title()`. -/
def pyTitle (s : String) : String := String.mk (pyTitleAux false s.data)

/-- The field list of the `_generate_fallback_assessment` result:
`overall_score` is the plain weighted sum (no normalization here);
strengths come from the 0.8/0.6 bands, weaknesses and improvement
priorities from metrics scoring below 0.5, with non-empty defaults, each
truncated to three. -/
def fallbackFieldsList (metrics : Metrics) : List (String × JValue) :=
  let overallScore := (metrics.map (fun m => m.2.score * m.2.weight)).sum
  let ap : String × List String :=
    if 8/10 ≤ overallScore then
      ("This module demonstrates high code quality with strong adherence to best practices.",
       ["High overall quality score", "Good metric performance", "Well-structured code"])
    else if 6/10 ≤ overallScore then
      ("This module shows good code quality with some areas for improvement.",
       ["Decent overall quality", "Some strong metrics", "Generally well-organized"])
    else
      ("This module has significant quality issues that need attention.",
       ["Potential for improvement", "Basic functionality present"])
  let weaknesses := metrics.filterMap (fun m =>
    if m.2.score < 1/2 then some ("Low " ++ replaceUnderscores m.1 ++ " score") else none)
  let improvement := metrics.filterMap (fun m =>
    if m.2.score < 1/2 then some (pyTitle (replaceUnderscores m.1)) else none)
  let weaknesses := if weaknesses = [] then ["Minor optimization opportunities"] else weaknesses
  let improvement := if improvement = [] then
      ["Code documentation", "Test coverage", "Complexity reduction"] else improvement
  [("overall_assessment", .str ap.1),
   ("strengths", .arr ((ap.2.take 3).map JValue.str)),
   ("weaknesses", .arr ((weaknesses.take 3).map JValue.str)),
   ("improvement_priority", .arr ((improvement.take 3).map JValue.str)),
   ("confidence", .num (7/10)),
   ("source", .str "fallback_analysis")]

/-- `_generate_fallback_assessment`: the deterministic assessment derived
only from the supplied metrics, used whenever the LLM is disabled or
failing. -/
def generateFallbackAssessment (metrics : Metrics) : JValue :=
  .obj (fallbackFieldsList metrics)

/-- The `required_sections` / `required_keys` list. -/
def requiredSections : List String :=
  ["overall_assessment", "strengths", "weaknesses", "improvement_priority"]

/-- Python `key in value`: key membership for dicts, element equality for
lists, substring for strings, `TypeError` for anything else. -/
def pyContains (v : JValue) (key : String) : Except String Bool :=
  match v with
  | .obj fields => .ok (fields.any (fun f => f.1 == key))
  | .arr elems => .ok (elems.any (fun e =>
      match e with
      | .str s => s == key
      | _ => false))
  | .str s => .ok (containsSub key.data s.data)
  | _ => .error "argument is not iterable"

/-- `all(key in result for key in keys)`, short-circuiting as `all` does. -/
def checkRequiredSections (v : JValue) : List String → Except String Bool
  | [] => .ok true
  | k :: rest =>
    match pyContains v k with
    | .ok true => checkRequiredSections v rest
    | .ok false => .ok false
    | .error e => .error e

/-- Python dict assignment `d[k] = v`: overwrite in place, or append. -/
def setField (fields : List (String × JValue)) (k : String) (v : JValue) :
    List (String × JValue) :=
  if fields.any (fun f => f.1 == k) then
    fields.map (fun f => if f.1 == k then (k, v) else f)
  else fields ++ [(k, v)]

/-- Field lookup in an object result (`result[k]`), `none` elsewhere. -/
def lookupField (v : JValue) (k : String) : Option JValue :=
  match v with
  | .obj fields => fields.lookup k
  | _ => none

/-- The returned mapping carries the four required top-level keys. -/
def hasRequiredKeys (v : JValue) : Bool :=
  match v with
  | .obj fields => requiredSections.all (fun k => fields.any (fun f => f.1 == k))
  | _ => false

/-- The architectural context from the enhanced-analysis collaborator,
reduced to the fields `_format_ai_context_for_llm` reads. -/
structure EnhancedAnalysis where
  apiEndpoints : List String
  architecturePatterns : List String
  components : List String
  mlModels : List String

/-- `", ".join`. -/
def joinComma : List String → String
  | [] => ""
  | [x] => x
  | x :: rest => x ++ ", " ++ joinComma rest

/-- `" | ".join`. -/
def joinBar : List String → String
  | [] => ""
  | [x] => x
  | x :: rest => x ++ " | " ++ joinBar rest

/-- `_format_ai_context_for_llm`: a `" | "`-joined summary of up to the
first 3 endpoints/patterns/components and first 2 models; empty when the
collaborator is absent — absence degrades to an empty context string. -/
def formatAiContext : Option EnhancedAnalysis → String
  | none => ""
  | some ea =>
    let parts :=
      (if ea.apiEndpoints ≠ [] then
        ["API Endpoints: " ++ joinComma (ea.apiEndpoints.take 3)] else []) ++
      (if ea.architecturePatterns ≠ [] then
        ["Architecture Patterns: " ++ joinComma (ea.architecturePatterns.take 3)] else []) ++
      (if ea.components ≠ [] then
        ["Key Components: " ++ joinComma (ea.components.take 3)] else []) ++
      (if ea.mlModels ≠ [] then
        ["ML Models: " ++ joinComma (ea.mlModels.take 2)] else [])
    joinBar parts

/-- `content[:cap] + "..."` bounded preview. -/
def contentPreview (content : String) (cap : Nat) : String :=
  if cap < content.length then String.mk (content.data.take cap) ++ "..." else content

/-- `_format_metrics_for_llm`, abbreviated to the metric names: the
numeric `:.2f`/`:.1%` rendering has no bearing on any verified property
(prompts matter only through cache-key identity, and every claim
quantifies over the prompt or fixes all prompt inputs). -/
def formatMetricsForLLM (metrics : Metrics) : String :=
  joinComma (metrics.map (fun m => m.1))

/-- The consolidated prompt of `_get_comprehensive_quality_assessment`
(literal instruction text abbreviated; see `formatMetricsForLLM`). -/
def comprehensivePrompt (modulePath moduleType : String) (metrics : Metrics)
    (content : String) (ea : Option EnhancedAnalysis) : String :=
  "comprehensive quality assessment\n" ++ modulePath ++ "\n" ++ moduleType ++ "\n"
    ++ formatMetricsForLLM metrics ++ "\n" ++ contentPreview content 2000 ++ "\n"
    ++ formatAiContext ea

/-- The `overall_assessment` prompt with its 500-character preview and
optional appended AI context. -/
def overallPrompt (modulePath : String) (metrics : Metrics) (content : String)
    (ea : Option EnhancedAnalysis) : String :=
  "overall assessment\n" ++ formatMetricsForLLM metrics ++ "\n" ++ modulePath ++ "\n"
    ++ contentPreview content 500 ++
    (if formatAiContext ea ≠ "" then
      "\n\nAdditional AI Analysis Context:\n" ++ formatAiContext ea else "")

/-- The `code_review` prompt (3000-character cap). -/
def codeReviewPrompt (content : String) (metrics : Metrics) : String :=
  "code review\n" ++ String.mk (content.data.take 3000) ++ "\n"
    ++ formatMetricsForLLM metrics

/-- The `pattern_analysis` prompt (2000-character cap). -/
def patternPrompt (content moduleType : String) : String :=
  "pattern analysis\n" ++ String.mk (content.data.take 2000) ++ "\n" ++ moduleType

/-- The `security_assessment` prompt (2000-character cap). -/
def securityPrompt (content : String) : String :=
  "security assessment\n" ++ String.mk (content.data.take 2000)

/-- `_get_overall_assessment`: call, parse, validate the four required
keys; a raised error (from the call, or a `TypeError` in the key check)
and a failed validation both fall back to the deterministic assessment. -/
def getOverallAssessment (cfg : LLMConfig) (modulePath : String)
    (metrics : Metrics) (content : String) (ea : Option EnhancedAnalysis)
    (st : LLMState) : JValue × LLMState :=
  let r := callOpenai cfg (overallPrompt modulePath metrics content ea) st
  match r.1 with
  | .ok resp =>
    let assessment := parseJsonResponse resp
    match checkRequiredSections assessment requiredSections with
    | .ok true => (assessment, r.2)
    | _ => (generateFallbackAssessment metrics, r.2)
  | .error _ => (generateFallbackAssessment metrics, r.2)

/-- `_get_code_review`: parse the response; a raised error yields the
unavailable-review stub. -/
def getCodeReview (cfg : LLMConfig) (content : String) (metrics : Metrics)
    (st : LLMState) : JValue × LLMState :=
  let r := callOpenai cfg (codeReviewPrompt content metrics) st
  match r.1 with
  | .ok resp => (parseJsonResponse resp, r.2)
  | .error _ =>
    (JValue.obj [("review_summary",
      .str "Code review unavailable due to processing error")], r.2)

/-- `_generate_fallback_pattern_analysis`. -/
def fallbackPatternAnalysis (detectedPatterns : List String) : JValue :=
  let n := detectedPatterns.length
  JValue.obj
    [("pattern_assessment", .str ("Static analysis detected " ++ Nat.repr n ++
        " design patterns. LLM analysis unavailable.")),
     ("patterns_found", .arr (detectedPatterns.map JValue.str)),
     ("recommendations", .arr ((if 0 < n then
        ["Review code structure for better pattern implementation",
         "Consider applying SOLID principles",
         "Evaluate if current patterns fit the use case"]
       else
        ["Consider implementing design patterns for better code structure"]).map
          JValue.str))]

/-- `_get_pattern_analysis`: an empty or whitespace response, a non-dict
parse (including the falsy empty dict) and a raised error all yield the
static fallback.  The metric entries in this model carry no `details`
mapping, so `detected_patterns` is the empty default `{}` — exactly what
the source computes on such input. -/
def getPatternAnalysis (cfg : LLMConfig) (content moduleType : String)
    (st : LLMState) : JValue × LLMState :=
  let detected : List String := []
  let r := callOpenai cfg (patternPrompt content moduleType) st
  match r.1 with
  | .ok resp =>
    if pyStripChars resp.data = [] then (fallbackPatternAnalysis detected, r.2)
    else
      match parseJsonResponse resp with
      | .obj [] => (fallbackPatternAnalysis detected, r.2)
      | .obj fields => (.obj fields, r.2)
      | _ => (fallbackPatternAnalysis detected, r.2)
  | .error _ => (fallbackPatternAnalysis detected, r.2)

/-- `_get_security_assessment`: a raised error yields the unknown-risk
stub. -/
def getSecurityAssessment (cfg : LLMConfig) (content : String)
    (st : LLMState) : JValue × LLMState :=
  let r := callOpenai cfg (securityPrompt content) st
  match r.1 with
  | .ok resp => (parseJsonResponse resp, r.2)
  | .error _ =>
    (JValue.obj [("security_score", .num (1/2)),
      ("risk_level", .str "unknown")], r.2)

/-- `quality_metrics.get('security', {})` truthiness. -/
def hasSecurityMetric (metrics : Metrics) : Bool :=
  metrics.any (fun m => m.1 == "security")

/-- `_fallback_to_individual_assessments`: the base fields come from the
overall assessment when it is dict-shaped (a `dict.update` with a non-dict
value raises and the handler substitutes the deterministic fallback); the
code-review, pattern and security sections are attached under the
guards of the source. -/
def fallbackToIndividual (cfg : LLMConfig) (modulePath : String)
    (metrics : Metrics) (content moduleType : String)
    (ea : Option EnhancedAnalysis) (st : LLMState) : JValue × LLMState :=
  let r1 := getOverallAssessment cfg modulePath metrics content ea st
  let base : List (String × JValue) :=
    match r1.1 with
    | .obj fields => fields
    | _ => fallbackFieldsList metrics
  let r2 :=
    if content ≠ "" ∧ content.length < 5000 then
      let cr := getCodeReview cfg content metrics r1.2
      (setField base "code_review" cr.1, cr.2)
    else (base, r1.2)
  let r3 :=
    if content ≠ "" then
      let pa := getPatternAnalysis cfg content moduleType r2.2
      (setField r2.1 "pattern_analysis" pa.1, pa.2)
    else r2
  let r4 :=
    if hasSecurityMetric metrics ∧ content ≠ "" then
      let sa := getSecurityAssessment cfg content r3.2
      (setField r3.1 "security_assessment" sa.1, sa.2)
    else r3
  (JValue.obj r4.1, r4.2)

/-- `_get_comprehensive_quality_assessment`: one consolidated call; a
raised error (from the call or a `TypeError` in the validation) and a
failed validation all route to the individual-assessment fallback. -/
def getComprehensive (cfg : LLMConfig) (modulePath : String)
    (metrics : Metrics) (content moduleType : String)
    (ea : Option EnhancedAnalysis) (st : LLMState) : JValue × LLMState :=
  let r := callOpenai cfg
    (comprehensivePrompt modulePath moduleType metrics content ea) st
  match r.1 with
  | .ok resp =>
    let result := parseJsonResponse resp
    match checkRequiredSections result requiredSections with
    | .ok true => (result, r.2)
    | _ => fallbackToIndividual cfg modulePath metrics content moduleType ea r.2
  | .error _ => fallbackToIndividual cfg modulePath metrics content moduleType ea r.2

/-- The `llm_metadata` object attached on the comprehensive path
(restricted to the fields derived from the model and inputs). -/
def llmMetadata (cfg : LLMConfig) (content : String) : JValue :=
  JValue.obj
    [("model_used", .str cfg.model),
     ("content_analyzed", .bool (0 < content.length))]

/-- `enhance_quality_assessment`: with the LLM disabled, return the
deterministic fallback with the world untouched — no network activity of
any kind.  Otherwise run the comprehensive assessment and attach
`llm_metadata`; an exception while doing so (in this model: the result not
being a dict, which makes the metadata assignment raise a `TypeError`) is
caught and the deterministic fallback returned instead. -/
def enhanceQualityAssessment (cfg : LLMConfig) (modulePath : String)
    (metrics : Metrics) (content moduleType : String)
    (ea : Option EnhancedAnalysis) (st : LLMState) : JValue × LLMState :=
  if ¬ cfg.openaiEnabled then (generateFallbackAssessment metrics, st)
  else
    let r := getComprehensive cfg modulePath metrics content moduleType ea st
    match r.1 with
    | .obj fields =>
      (JValue.obj (setField fields "llm_metadata" (llmMetadata cfg content)), r.2)
    | _ => (generateFallbackAssessment metrics, r.2)

/-! ### Claims about the LLM client -/

/-- A well-formed JSON document for the recovery scenarios. -/
def c6CleanJson : String := "\x7b\x22overall_assessment\x22: \x22Solid module\x22\x7d"

/-- Its parse. -/
def c6CleanVal : JValue := JValue.obj [("overall_assessment", JValue.str "Solid module")]

/-- C6: `_parse_json_response` never raises: clean JSON parses directly,
fenced JSON parses after fence-stripping, JSON behind introductory prose is
recovered by the later strategies, and when every strategy fails — for any
input text whatsoever — the result is the empty mapping. -/
theorem c6_parse_json_recovery :
    (∀ text : String,
      jsonParse (pyStripChars text.data) = none →
      strat2 (pyStripChars text.data) = none →
      strat3 (pyStripChars text.data) = none →
      strat4 (pyStripChars text.data) (jsonPrefixes.map (fun p => p.data)) = none →
      strat5 (pyStripChars text.data) = none →
      parseJsonResponse text = JValue.obj []) ∧
    parseJsonResponse c6CleanJson = c6CleanVal ∧
    parseJsonResponse ("```json\n" ++ c6CleanJson ++ "\n```") = c6CleanVal ∧
    parseJsonResponse ("Here\x27s the JSON response: " ++ c6CleanJson) = c6CleanVal ∧
    parseJsonResponse "no structured data here at all" = JValue.obj [] := by
  refine ⟨?_, rfl, rfl, rfl, rfl⟩
  intro text h1 h2 h3 h4 h5
  simp only [parseJsonResponse, h1, h2, h3, h4, h5]
  split <;> rfl

/-- Witness for C6: the garbage input defeats every strategy and yields the
empty mapping. -/
theorem c6_parse_json_recovery_witness :
    jsonParse (pyStripChars ("no structured data here at all").data) = none ∧
    parseJsonResponse "no structured data here at all" = JValue.obj [] :=
  ⟨rfl, c6_parse_json_recovery.1 "no structured data here at all" rfl rfl rfl rfl rfl⟩

/-- C4: with caching enabled and a cold cache, the first call performs one
external call and stores the response under the (model, prompt) key; a
second call with the identical key while the entry is within its TTL
returns the cached response with the world unchanged (no external call);
and an entry past its TTL is deleted on read, treated as a miss, and a
fresh external call is made. -/
theorem c4_cache_round_trip (cfg : LLMConfig) (prompt r : String)
    (st : LLMState) (t2 : ℚ)
    (hcache : cfg.cacheEnabled = true) (hmr : cfg.maxRetries = 3)
    (hmiss : st.cache.lookup (cacheKey cfg.model prompt) = none)
    (hsvc : cfg.svc st.calls = .ok r)
    (hstr : String.mk (pyStripChars r.data) = r) (hne : r ≠ "")
    (hfresh : t2 ≤ st.now + cfg.cacheTtlHours) :
    callOpenai cfg prompt st =
      (.ok r,
        { cache := (cacheKey cfg.model prompt, ⟨r, st.now, cfg.model⟩) ::
            st.cache.eraseP (fun p => p.1 == cacheKey cfg.model prompt),
          now := st.now, calls := st.calls + 1, sleeps := st.sleeps }) ∧
    callOpenai cfg prompt
        { cache := (cacheKey cfg.model prompt, ⟨r, st.now, cfg.model⟩) ::
            st.cache.eraseP (fun p => p.1 == cacheKey cfg.model prompt),
          now := t2, calls := st.calls + 1, sleeps := st.sleeps } =
      (.ok r,
        { cache := (cacheKey cfg.model prompt, ⟨r, st.now, cfg.model⟩) ::
            st.cache.eraseP (fun p => p.1 == cacheKey cfg.model prompt),
          now := t2, calls := st.calls + 1, sleeps := st.sleeps }) ∧
    (∀ e : CacheEntry, ∀ st' : LLMState,
      st'.cache.lookup (cacheKey cfg.model prompt) = some e →
      e.timestamp + cfg.cacheTtlHours < st'.now →
      getCachedResponse cfg (cacheKey cfg.model prompt) st' =
        (none, st'.cache.eraseP (fun p => p.1 == cacheKey cfg.model prompt)) ∧
      (cfg.svc st'.calls = .ok r →
        (callOpenai cfg prompt st').1 = .ok r ∧
        (callOpenai cfg prompt st').2.calls = st'.calls + 1)) := by
  refine ⟨?_, ?_, ?_⟩
  · simp [callOpenai, getCachedResponse, hcache, hmiss, hmr, callAttempts,
      hsvc, hstr, hne, cacheResponse]
  · simp [callOpenai, getCachedResponse, hcache, List.lookup, hne,
      not_lt.mpr hfresh]
  · intro e st' hlook hexp
    constructor
    · simp [getCachedResponse, hcache, hlook, hexp]
    · intro hsvc'
      constructor
      · simp [callOpenai, getCachedResponse, hcache, hlook, hexp, hmr,
          callAttempts, hsvc', hstr, hne, cacheResponse]
      · simp [callOpenai, getCachedResponse, hcache, hlook, hexp, hmr,
          callAttempts, hsvc', hstr, hne, cacheResponse]

/-- The scenario configuration for the C4 witness: a cooperative service. -/
def c4Cfg : LLMConfig :=
  { openaiEnabled := true, model := "gpt-4o-mini", maxRetries := 3,
    retryBackoffSeconds := 2, cacheEnabled := true, cacheTtlHours := 24,
    svc := fun _ => .ok "cached answer" }

/-- An empty cold-start world for the C4 witness. -/
def c4St : LLMState := { cache := [], now := 0, calls := 0, sleeps := [] }

/-- Witness for C4 at a concrete configuration and state. -/
theorem c4_cache_round_trip_witness :
    (callOpenai c4Cfg "a prompt" c4St).1 = .ok "cached answer" := by
  rw [(c4_cache_round_trip c4Cfg "a prompt" "cached answer" c4St 1 rfl rfl rfl
    rfl rfl (by decide) (by norm_num [c4St, c4Cfg])).1]

/-- C5: a retryable error (message flagging rate-limit/5xx/timeout/
unavailability) is retried with exponential backoff `base · 2^attempt` up
to `max_retries` total attempts, after which the last error is re-raised;
a non-retryable error (e.g. an invalid-api-key message) is re-raised
immediately after a single attempt with no sleep. -/
theorem c5_retry_policy (cfg : LLMConfig) (prompt : String) (st : LLMState)
    (e1 e2 e3 : String)
    (hcache : cfg.cacheEnabled = false) (hmr : cfg.maxRetries = 3)
    (h1 : cfg.svc st.calls = .error e1) (hr1 : isRetryableError e1 = true)
    (h2 : cfg.svc (st.calls + 1) = .error e2) (hr2 : isRetryableError e2 = true)
    (h3 : cfg.svc (st.calls + 2) = .error e3) :
    callOpenai cfg prompt st =
      (.error e3,
        { cache := st.cache, now := st.now, calls := st.calls + 3,
          sleeps := st.sleeps ++
            [cfg.retryBackoffSeconds * 2 ^ 0, cfg.retryBackoffSeconds * 2 ^ 1] }) ∧
    (∀ e : String, ∀ st0 : LLMState, cfg.svc st0.calls = .error e →
      isRetryableError e = false →
      callOpenai cfg prompt st0 =
        (.error e,
          { cache := st0.cache, now := st0.now,
            calls := st0.calls + 1, sleeps := st0.sleeps })) ∧
    isRetryableError "Rate limit exceeded" = true ∧
    isRetryableError "Invalid API key provided" = false := by
  refine ⟨?_, ?_, by decide, by decide⟩
  · simp [callOpenai, getCachedResponse, hcache, hmr, callAttempts,
      h1, hr1, h2, hr2, h3]
  · intro e st0 hsvc hnr
    simp [callOpenai, getCachedResponse, hcache, hmr, callAttempts, hsvc, hnr]

/-- The scenario configuration for the C5 witness: a rate-limited service. -/
def c5Cfg : LLMConfig :=
  { openaiEnabled := true, model := "gpt-4o-mini", maxRetries := 3,
    retryBackoffSeconds := 2, cacheEnabled := false, cacheTtlHours := 24,
    svc := fun _ => .error "429 Too Many Requests" }

/-- A cold-start world for the C5 witness. -/
def c5St : LLMState := { cache := [], now := 0, calls := 0, sleeps := [] }

/-- Witness for C5 at a concrete configuration and state. -/
theorem c5_retry_policy_witness :
    (callOpenai c5Cfg "a prompt" c5St).1 = .error "429 Too Many Requests" := by
  rw [(c5_retry_policy c5Cfg "a prompt" c5St
    "429 Too Many Requests" "429 Too Many Requests" "429 Too Many Requests"
    rfl rfl rfl (by decide) rfl (by decide) rfl).1]

/-- C7: with the LLM disabled, `enhance_quality_assessment` returns the
deterministic fallback — a mapping carrying `overall_assessment`,
`strengths`, `weaknesses` and `improvement_priority`, computed only from
the supplied metrics — and the world is untouched: no external call of any
kind is attempted. -/
theorem c7_fallback_when_disabled (cfg : LLMConfig) (modulePath : String)
    (metrics : Metrics) (content moduleType : String)
    (ea : Option EnhancedAnalysis) (st : LLMState)
    (hdis : cfg.openaiEnabled = false) :
    enhanceQualityAssessment cfg modulePath metrics content moduleType ea st =
      (generateFallbackAssessment metrics, st) ∧
    (enhanceQualityAssessment cfg modulePath metrics content moduleType ea st).2
      = st ∧
    hasRequiredKeys (generateFallbackAssessment metrics) = true := by
  refine ⟨?_, ?_, rfl⟩
  · simp [enhanceQualityAssessment, hdis]
  · simp [enhanceQualityAssessment, hdis]

/-- The scenario configuration for the C7 witness: the LLM disabled. -/
def c7Cfg : LLMConfig :=
  { openaiEnabled := false, model := "gpt-4o-mini", maxRetries := 3,
    retryBackoffSeconds := 2, cacheEnabled := true, cacheTtlHours := 24,
    svc := fun _ => .ok "never consulted" }

/-- A cold-start world for the C7 witness. -/
def c7St : LLMState := { cache := [], now := 0, calls := 0, sleeps := [] }

/-- Witness for C7 at a concrete configuration and state. -/
theorem c7_fallback_when_disabled_witness :
    enhanceQualityAssessment c7Cfg "module.py" [] "" "module" none c7St =
      (generateFallbackAssessment [], c7St) :=
  (c7_fallback_when_disabled c7Cfg "module.py" [] "" "module" none c7St rfl).1

/-! ### C10: `enhance_quality_assessment` never propagates exceptions -/

lemma any_key_setField {fields : List (String × JValue)} {kk key : String}
    {v : JValue} (h : fields.any (fun f => f.1 == key) = true) :
    (setField fields kk v).any (fun f => f.1 == key) = true := by
  unfold setField
  by_cases hrep : fields.any (fun f => f.1 == kk)
  · rw [if_pos hrep]
    rcases List.any_eq_true.mp h with ⟨f, hf, hfk⟩
    apply List.any_eq_true.mpr
    by_cases hfkk : f.1 == kk
    · refine ⟨(kk, v), List.mem_map.mpr ⟨f, hf, by rw [if_pos hfkk]⟩, ?_⟩
      have h1 : f.1 = key := by simpa using hfk
      have h2 : f.1 = kk := by simpa using hfkk
      simp [← h2, h1]
    · exact ⟨f, List.mem_map.mpr ⟨f, hf, by rw [if_neg hfkk]⟩, hfk⟩
  · rw [if_neg hrep]
    rcases List.any_eq_true.mp h with ⟨f, hf, hfk⟩
    exact List.any_eq_true.mpr ⟨f, List.mem_append_left _ hf, hfk⟩

lemma checkRequired_obj_keys {fields : List (String × JValue)} :
    ∀ ks : List String, checkRequiredSections (.obj fields) ks = .ok true →
      ∀ k ∈ ks, fields.any (fun f => f.1 == k) = true := by
  intro ks
  induction ks with
  | nil => intro _ k hk; exact absurd hk (List.not_mem_nil k)
  | cons a rest ih =>
    intro h k hk
    simp only [checkRequiredSections, pyContains] at h
    cases ha : fields.any (fun f => f.1 == a) with
    | true =>
      rw [ha] at h
      rcases List.mem_cons.mp hk with hk1 | hk1
      · rw [hk1]; exact ha
      · exact ih h k hk1
    | false =>
      rw [ha] at h
      simp at h

lemma hasRequiredKeys_setField {fields : List (String × JValue)}
    {kk : String} {v : JValue} (h : hasRequiredKeys (.obj fields) = true) :
    hasRequiredKeys (.obj (setField fields kk v)) = true := by
  simp only [hasRequiredKeys, List.all_eq_true] at h ⊢
  intro k hk
  exact any_key_setField (h k hk)

lemma hasRequiredKeys_of_check {fields : List (String × JValue)}
    (h : checkRequiredSections (.obj fields) requiredSections = .ok true) :
    hasRequiredKeys (.obj fields) = true := by
  simp only [hasRequiredKeys, List.all_eq_true]
  exact checkRequired_obj_keys requiredSections h


lemma hasRequiredKeys_fallbackFields (metrics : Metrics) :
    hasRequiredKeys (.obj (fallbackFieldsList metrics)) = true := rfl

lemma getOverallAssessment_obj {cfg : LLMConfig} {modulePath : String}
    {metrics : Metrics} {content : String} {ea : Option EnhancedAnalysis}
    {st : LLMState} {fields : List (String × JValue)}
    (heq : (getOverallAssessment cfg modulePath metrics content ea st).1 =
      .obj fields) :
    checkRequiredSections (.obj fields) requiredSections = .ok true ∨
      fields = fallbackFieldsList metrics := by
  simp only [getOverallAssessment] at heq
  split at heq
  · -- ok resp arm
    rename_i resp hco
    split at heq
    · rename_i hc
      simp only at heq
      rw [heq] at hc
      exact Or.inl hc
    · rename_i hne1
      simp only [generateFallbackAssessment] at heq
      exact Or.inr (JValue.obj.inj heq).symm
  · simp only [generateFallbackAssessment] at heq
    exact Or.inr (JValue.obj.inj heq).symm

lemma overallBase_keys (cfg : LLMConfig) (modulePath : String)
    (metrics : Metrics) (content : String) (ea : Option EnhancedAnalysis)
    (st : LLMState) :
    hasRequiredKeys (.obj
      (match (getOverallAssessment cfg modulePath metrics content ea st).1 with
       | .obj fields => fields
       | _ => fallbackFieldsList metrics)) = true := by
  split
  · rename_i fields heq
    rcases getOverallAssessment_obj heq with hc | hfb
    · exact hasRequiredKeys_of_check hc
    · rw [hfb]; exact hasRequiredKeys_fallbackFields metrics
  · exact hasRequiredKeys_fallbackFields metrics


lemma hasRequiredKeys_fallbackToIndividual (cfg : LLMConfig)
    (modulePath : String) (metrics : Metrics) (content moduleType : String)
    (ea : Option EnhancedAnalysis) (st : LLMState) :
    hasRequiredKeys
      (fallbackToIndividual cfg modulePath metrics content moduleType ea st).1
      = true := by
  simp only [fallbackToIndividual]
  split
  · split
    · split
      · exact hasRequiredKeys_setField (hasRequiredKeys_setField
          (hasRequiredKeys_setField (overallBase_keys cfg modulePath metrics
            content ea st)))
      · exact hasRequiredKeys_setField (hasRequiredKeys_setField
          (overallBase_keys cfg modulePath metrics content ea st))
    · split
      · exact hasRequiredKeys_setField (hasRequiredKeys_setField
          (overallBase_keys cfg modulePath metrics content ea st))
      · exact hasRequiredKeys_setField
          (overallBase_keys cfg modulePath metrics content ea st)
  · split
    · split
      · exact hasRequiredKeys_setField (hasRequiredKeys_setField
          (overallBase_keys cfg modulePath metrics content ea st))
      · exact hasRequiredKeys_setField
          (overallBase_keys cfg modulePath metrics content ea st)
    · split
      · exact hasRequiredKeys_setField
          (overallBase_keys cfg modulePath metrics content ea st)
      · exact overallBase_keys cfg modulePath metrics content ea st


lemma getComprehensive_obj_keys {cfg : LLMConfig} {modulePath : String}
    {metrics : Metrics} {content moduleType : String}
    {ea : Option EnhancedAnalysis} {st : LLMState}
    {fields : List (String × JValue)}
    (heq : (getComprehensive cfg modulePath metrics content moduleType ea st).1 =
      .obj fields) :
    hasRequiredKeys (.obj fields) = true := by
  simp only [getComprehensive] at heq
  split at heq
  · rename_i resp hco
    split at heq
    · rename_i hc
      simp only at heq
      rw [heq] at hc
      exact hasRequiredKeys_of_check hc
    · rename_i hne1
      rw [← heq]
      exact hasRequiredKeys_fallbackToIndividual cfg modulePath metrics content
        moduleType ea _
  · rw [← heq]
    exact hasRequiredKeys_fallbackToIndividual cfg modulePath metrics content
      moduleType ea _

lemma enhance_result_hasRequiredKeys (cfg : LLMConfig) (modulePath : String)
    (metrics : Metrics) (content moduleType : String)
    (ea : Option EnhancedAnalysis) (st : LLMState) :
    hasRequiredKeys
      (enhanceQualityAssessment cfg modulePath metrics content moduleType ea
        st).1 = true := by
  simp only [enhanceQualityAssessment]
  split
  · exact rfl
  · split
    · rename_i fields heq
      exact hasRequiredKeys_setField (getComprehensive_obj_keys heq)
    · exact rfl


lemma lookup_map_replace {k kk : String} {v : JValue}
    (hne : (k == kk) = false) :
    ∀ fields : List (String × JValue),
      List.lookup k (fields.map (fun f => if f.1 == kk then (kk, v) else f)) =
        List.lookup k fields := by
  intro fields
  induction fields with
  | nil => rfl
  | cons f rest ih =>
    simp only [List.map_cons]
    by_cases hfkk : (f.1 == kk) = true
    · rw [if_pos hfkk]
      have hf1 : f.1 = kk := by simpa using hfkk
      simp only [List.lookup, hf1, hne, ih]
    · rw [if_neg hfkk]
      simp only [List.lookup, ih]

lemma lookup_append_single {k kk : String} {v : JValue}
    (hne : (k == kk) = false) :
    ∀ fields : List (String × JValue),
      List.lookup k (fields ++ [(kk, v)]) = List.lookup k fields := by
  intro fields
  induction fields with
  | nil => simp [List.lookup, hne]
  | cons f rest ih =>
    simp only [List.cons_append, List.lookup]
    cases hkf : k == f.1 with
    | false => exact ih
    | true => rfl

lemma lookup_setField_ne {fields : List (String × JValue)} {kk k : String}
    {v : JValue} (hne : (k == kk) = false) :
    List.lookup k (setField fields kk v) = List.lookup k fields := by
  unfold setField
  by_cases hrep : fields.any (fun f => f.1 == kk)
  · rw [if_pos hrep]; exact lookup_map_replace hne fields
  · rw [if_neg hrep]; exact lookup_append_single hne fields

lemma callAttempts_error (cfg : LLMConfig) (key : String)
    (hsvc : ∀ n, ∃ e, cfg.svc n = .error e) :
    ∀ fuel attempt st, ∃ e st',
      callAttempts cfg key fuel attempt st = (.error e, st') := by
  intro fuel
  induction fuel with
  | zero => intro attempt st; exact ⟨_, _, rfl⟩
  | succ f ih =>
    intro attempt st
    rcases hsvc st.calls with ⟨e, he⟩
    simp only [callAttempts, he]
    by_cases hcond : f ≠ 0 ∧ isRetryableError e = true
    · rw [if_pos hcond]
      exact ih (attempt + 1) _
    · rw [if_neg hcond]
      exact ⟨e, _, rfl⟩

lemma callOpenai_error (cfg : LLMConfig) (prompt : String) (st : LLMState)
    (hcache : cfg.cacheEnabled = false)
    (hsvc : ∀ n, ∃ e, cfg.svc n = .error e) :
    ∃ e st', callOpenai cfg prompt st = (.error e, st') := by
  simp [callOpenai, getCachedResponse, hcache]
  exact callAttempts_error cfg (cacheKey cfg.model prompt) hsvc cfg.maxRetries 0 st


lemma getOverallAssessment_allfail (cfg : LLMConfig) (modulePath : String)
    (metrics : Metrics) (content : String) (ea : Option EnhancedAnalysis)
    (st : LLMState) (hcache : cfg.cacheEnabled = false)
    (hsvc : ∀ n, ∃ e, cfg.svc n = .error e) :
    (getOverallAssessment cfg modulePath metrics content ea st).1 =
      generateFallbackAssessment metrics := by
  rcases callOpenai_error cfg (overallPrompt modulePath metrics content ea) st
    hcache hsvc with ⟨e, st2, h⟩
  simp only [getOverallAssessment, h]

lemma fallbackToIndividual_lookup_allfail (cfg : LLMConfig)
    (modulePath : String) (metrics : Metrics) (content moduleType : String)
    (ea : Option EnhancedAnalysis) (st : LLMState) (k : String)
    (hcache : cfg.cacheEnabled = false)
    (hsvc : ∀ n, ∃ e, cfg.svc n = .error e)
    (hcr : (k == "code_review") = false)
    (hpa : (k == "pattern_analysis") = false)
    (hsa : (k == "security_assessment") = false) :
    lookupField
      (fallbackToIndividual cfg modulePath metrics content moduleType ea st).1
      k = List.lookup k (fallbackFieldsList metrics) := by
  simp only [fallbackToIndividual, lookupField,
    getOverallAssessment_allfail cfg modulePath metrics content ea st hcache hsvc,
    generateFallbackAssessment]
  split <;> split <;> split <;>
    first
      | rw [lookup_setField_ne hsa, lookup_setField_ne hpa,
          lookup_setField_ne hcr]
      | rw [lookup_setField_ne hsa, lookup_setField_ne hpa]
      | rw [lookup_setField_ne hsa, lookup_setField_ne hcr]
      | rw [lookup_setField_ne hpa, lookup_setField_ne hcr]
      | rw [lookup_setField_ne hsa]
      | rw [lookup_setField_ne hpa]
      | rw [lookup_setField_ne hcr]
      | rfl

lemma fallbackToIndividual_obj (cfg : LLMConfig) (modulePath : String)
    (metrics : Metrics) (content moduleType : String)
    (ea : Option EnhancedAnalysis) (st : LLMState) :
    ∃ fields, (fallbackToIndividual cfg modulePath metrics content moduleType
      ea st).1 = .obj fields := by
  simp only [fallbackToIndividual]
  exact ⟨_, rfl⟩

lemma enhance_allfail_matches_fallback (cfg : LLMConfig) (modulePath : String)
    (metrics : Metrics) (content moduleType : String)
    (ea : Option EnhancedAnalysis) (st : LLMState)
    (hen : cfg.openaiEnabled = true) (hcache : cfg.cacheEnabled = false)
    (hsvc : ∀ n, ∃ e, cfg.svc n = .error e) :
    ∀ k ∈ requiredSections,
      lookupField
        (enhanceQualityAssessment cfg modulePath metrics content moduleType ea
          st).1 k =
      lookupField (generateFallbackAssessment metrics) k := by
  intro k hk
  have hkc : (k == "code_review") = false ∧ (k == "pattern_analysis") = false ∧
      (k == "security_assessment") = false ∧ (k == "llm_metadata") = false := by
    simp only [requiredSections, List.mem_cons, List.not_mem_nil, or_false] at hk
    rcases hk with rfl | rfl | rfl | rfl <;> exact ⟨by decide, by decide, by decide, by decide⟩
  rcases callOpenai_error cfg
    (comprehensivePrompt modulePath moduleType metrics content ea) st hcache hsvc
    with ⟨e, st2, hco⟩
  rcases fallbackToIndividual_obj cfg modulePath metrics content moduleType ea st2
    with ⟨fields, hf⟩
  simp only [enhanceQualityAssessment, hen, getComprehensive, hco]
  simp only [hf]
  have hstep : List.lookup k (setField fields "llm_metadata"
      (llmMetadata cfg content)) = List.lookup k fields :=
    lookup_setField_ne hkc.2.2.2
  have hfield : List.lookup k fields =
      List.lookup k (fallbackFieldsList metrics) := by
    have h2 := fallbackToIndividual_lookup_allfail cfg modulePath metrics content
      moduleType ea st2 k hcache hsvc hkc.1 hkc.2.1 hkc.2.2.1
    rw [hf] at h2
    exact h2
  simp [lookupField, generateFallbackAssessment, hstep, hfield]


/-- C10: for every input, `enhance_quality_assessment` returns a mapping
carrying the keys `overall_assessment`, `strengths`, `weaknesses` and
`improvement_priority`, and never propagates an exception; in particular
when the LLM path fails throughout — retry-exhausted or non-retryable
errors re-raised by `_call_openai` — the errors are caught and the four
core fields coincide with the deterministic fallback assessment. -/
theorem c10_enhance_never_raises :
    (∀ (cfg : LLMConfig) (modulePath : String) (metrics : Metrics)
        (content moduleType : String) (ea : Option EnhancedAnalysis)
        (st : LLMState),
      hasRequiredKeys
        (enhanceQualityAssessment cfg modulePath metrics content moduleType ea
          st).1 = true) ∧
    (∀ (cfg : LLMConfig) (modulePath : String) (metrics : Metrics)
        (content moduleType : String) (ea : Option EnhancedAnalysis)
        (st : LLMState),
      cfg.openaiEnabled = true → cfg.cacheEnabled = false →
      (∀ n, ∃ e, cfg.svc n = .error e) →
      ∀ k ∈ requiredSections,
        lookupField (enhanceQualityAssessment cfg modulePath metrics content
          moduleType ea st).1 k =
        lookupField (generateFallbackAssessment metrics) k) :=
  ⟨fun cfg modulePath metrics content moduleType ea st =>
      enhance_result_hasRequiredKeys cfg modulePath metrics content moduleType
        ea st,
    fun cfg modulePath metrics content moduleType ea st hen hcache hsvc =>
      enhance_allfail_matches_fallback cfg modulePath metrics content
        moduleType ea st hen hcache hsvc⟩

/-- The scenario configuration for the C10 witness: an always-failing
service with the cache disabled. -/
def c10Cfg : LLMConfig :=
  { openaiEnabled := true, model := "gpt-4o-mini", maxRetries := 3,
    retryBackoffSeconds := 2, cacheEnabled := false, cacheTtlHours := 24,
    svc := fun _ => .error "boom" }

/-- A cold-start world for the C10 witness. -/
def c10St : LLMState := { cache := [], now := 0, calls := 0, sleeps := [] }

/-- Witness for C10 at a concrete configuration and state. -/
theorem c10_enhance_never_raises_witness :
    c10Cfg.openaiEnabled = true ∧
    lookupField
      (enhanceQualityAssessment c10Cfg "module.py" [] "" "module" none
        c10St).1 "overall_assessment" =
      lookupField (generateFallbackAssessment []) "overall_assessment" :=
  ⟨rfl, c10_enhance_never_raises.2 c10Cfg "module.py" [] "" "module" none c10St
    rfl rfl (fun _ => ⟨"boom", rfl⟩) "overall_assessment" (by decide)⟩

end AutoDoc
